import Mathlib

/-!
Verification development for the rrc-tui session engine (src/rrc_tui).

The Python code is shallowly embedded: CBOR-decoded envelope values become
the inductive `CVal`; Python `dict`s (which preserve insertion order and
overwrite in place) become association lists with distinct keys; byte
strings become `List Nat`; Python `int` and timestamps become `Int`
(monotonic clock readings are modelled as abstract ordered time values);
fallible operations return `Except`/`Option`.
-/

/-- A decoded CBOR value as produced by the (external) codec: integers,
byte strings, text, nested integer-keyed maps and lists. -/
inductive CVal where
  | int (n : Int)
  | bytes (b : List Nat)
  | text (s : String)
  | map (m : List (Int × CVal))
  | list (l : List CVal)

/-- An envelope or body: an insertion-ordered mapping of integer keys to
values (Python `dict` with unique keys). -/
abbrev EnvMap := List (Int × CVal)

/-- `d.get(k)` on an integer-keyed dict. -/
def lookupV (m : EnvMap) (k : Int) : Option CVal :=
  (m.find? (fun p => p.1 == k)).map (fun p => p.2)

/-- `d[k] = v` on an insertion-ordered dict with byte-string keys:
overwriting an existing key keeps its position, a new key is appended. -/
def alist_insert {α : Type} : List (List Nat × α) → List Nat → α →
    List (List Nat × α)
  | [], k, v => [(k, v)]
  | p :: rest, k, v =>
    if p.1 == k then (k, v) :: rest else p :: alist_insert rest k v

/-- `d.get(k)` on a byte-string-keyed dict. -/
def alist_lookup {α : Type} (c : List (List Nat × α)) (k : List Nat) : Option α :=
  (c.find? (fun p => p.1 == k)).map (fun p => p.2)

/-- `d.pop(k, None)` on a byte-string-keyed dict: returns the value if
present and the dict with that key removed. -/
def alist_pop {α : Type} (c : List (List Nat × α)) (k : List Nat) :
    Option α × List (List Nat × α) :=
  (alist_lookup c k, c.eraseP (fun p => p.1 == k))

/-- Well-formedness of a dict model: keys are pairwise distinct, as in a
Python `dict`. -/
abbrev KeysNodup {α : Type} (c : List (List Nat × α)) : Prop :=
  (c.map Prod.fst).Nodup

/-- The ASCII portion of Python's `str.strip` whitespace set. -/
def py_is_space (c : Char) : Bool :=
  c = ' ' ∨ c = '\t' ∨ c = '\n' ∨ c = '\r' ∨ c = '\x0b' ∨ c = '\x0c'

/-- Python `s.strip()`: remove leading and trailing whitespace (restricted
to the ASCII whitespace set, which the claims' inputs stay inside). -/
def py_strip (s : String) : String :=
  ⟨((s.data.dropWhile py_is_space).reverse.dropWhile py_is_space).reverse⟩

/-- Python `s.lower()` (ASCII case mapping, which the claims' inputs stay
inside). -/
def py_lower (s : String) : String :=
  ⟨s.data.map Char.toLower⟩

/-- Modelled from the spec: `constants.py` is not under src/; the spec's
envelope key schema table fixes the integer keys 0..7. Protocol version key. -/
def K_V : Int := 0

/-- Modelled from the spec: message type key. -/
def K_T : Int := 1

/-- Modelled from the spec: message id key. -/
def K_ID : Int := 2

/-- Modelled from the spec: timestamp key. -/
def K_TS : Int := 3

/-- Modelled from the spec: source identity key. -/
def K_SRC : Int := 4

/-- Modelled from the spec: room key. -/
def K_ROOM : Int := 5

/-- Modelled from the spec: body key. -/
def K_BODY : Int := 6

/-- Modelled from the spec: nickname key. -/
def K_NICK : Int := 7

/-- Modelled from the spec: resource-announcement body keys (id, kind,
size, optional sha256, optional encoding); `constants.py` is missing from
src/, so the concrete numerals stand in for the unknown distinct values. -/
def B_RES_ID : Int := 1

/-- Modelled from the spec: resource body kind key. -/
def B_RES_KIND : Int := 2

/-- Modelled from the spec: resource body size key. -/
def B_RES_SIZE : Int := 3

/-- Modelled from the spec: resource body sha256 key. -/
def B_RES_SHA256 : Int := 4

/-- Modelled from the spec: resource body encoding key. -/
def B_RES_ENCODING : Int := 5

/-- Modelled from the spec: WELCOME body key holding the limits sub-map. -/
def B_WELCOME_LIMITS : Int := 1

/-- Modelled from the spec: WELCOME limits sub-map key for nickname-max-bytes;
the five recognized limit keys are distinct small integers whose concrete
values are unknown (`constants.py` is missing from src/). -/
def L_MAX_NICK_BYTES : Int := 1

/-- Modelled from the spec: limits key for room-name-max-bytes. -/
def L_MAX_ROOM_NAME_BYTES : Int := 2

/-- Modelled from the spec: limits key for message-max-bytes. -/
def L_MAX_MSG_BODY_BYTES : Int := 3

/-- Modelled from the spec: limits key for max-rooms-per-session. -/
def L_MAX_ROOMS_PER_SESSION : Int := 4

/-- Modelled from the spec: limits key for rate-limit-per-minute. -/
def L_RATE_LIMIT_MSGS_PER_MINUTE : Int := 5

/-- `_ResourceExpectation` from client.py: tracks an expected incoming
Resource transfer. -/
structure ResourceExpectation where
  id : List Nat
  kind : String
  size : Int
  sha256 : Option (List Nat)
  encoding : Option String
  created_at : Int
  expires_at : Int
  room : Option String
deriving Repr, DecidableEq

/-- `Client._resource_expectations`: a dict from resource id bytes to
expectations, in insertion order. -/
abbrev ExpCache := List (List Nat × ResourceExpectation)

/-- `min(keys, key=lambda r: created_at)` over the dict: the first entry
(in insertion order) with minimal `created_at`, or `none` for an empty
dict (where Python `min` raises `ValueError`). -/
def oldest_entry : ExpCache → Option (List Nat × ResourceExpectation)
  | [] => none
  | p :: rest =>
    match oldest_entry rest with
    | none => some p
    | some q => if q.2.created_at < p.2.created_at then some q else some p

/-- The capacity-bounded insert of `Client._on_packet`'s resource-envelope
branch (client.py lines 722-742): when the cache is at or over capacity,
delete the entry with the smallest `created_at` (first such in iteration
order) and then store the new expectation under its id.  With an empty
cache at capacity 0, Python's `min` raises and the surrounding
`except Exception` leaves the cache unchanged. -/
def register_expectation (max_pending : Nat) (c : ExpCache)
    (rid : List Nat) (e : ResourceExpectation) : ExpCache :=
  if max_pending ≤ c.length then
    match oldest_entry c with
    | none => c
    | some old => alist_insert (c.eraseP (fun p => p.1 == old.1)) rid e
  else alist_insert c rid e

/-- `Client._cleanup_expired_expectations`: drop every entry with
`now >= expires_at`. -/
def cleanup_expired_expectations (now : Int) (c : ExpCache) : ExpCache :=
  c.filter (fun p => decide (now < p.2.expires_at))

/-- `Client._find_resource_expectation`: purge expired entries, then return
the first remaining entry whose recorded size equals the advertised size.
Returns the purged cache together with the match. -/
def find_resource_expectation (now : Int) (c : ExpCache) (size : Int) :
    ExpCache × Option ResourceExpectation :=
  let c2 := cleanup_expired_expectations now c
  (c2, (c2.find? (fun p => p.2.size == size)).map (fun p => p.2))

/-- The validation half of the resource-envelope branch of
`Client._on_packet` (client.py lines 693-742): extract and type-check
id/kind/size/sha256/encoding from the body, require `size > 0` and
`size <= max_resource_bytes`, and build the expectation stored under the
id (an empty sha256 byte string is stored as `None`, the room field is
kept only when it is a text value). -/
def parse_resource_body (now ttl max_resource_bytes : Int) (env : EnvMap) :
    Option ResourceExpectation :=
  match lookupV env K_BODY with
  | some (CVal.map body) =>
    match lookupV body B_RES_ID with
    | some (CVal.bytes rid) =>
      match lookupV body B_RES_KIND with
      | some (CVal.text kind) =>
        match lookupV body B_RES_SIZE with
        | some (CVal.int size) =>
          if size ≤ 0 then none
          else
            match
              (match lookupV body B_RES_SHA256 with
               | none => some (none : Option (List Nat))
               | some (CVal.bytes b) => some (if b.isEmpty then none else some b)
               | some _ => none),
              (match lookupV body B_RES_ENCODING with
               | none => some (none : Option String)
               | some (CVal.text s) => some (some s)
               | some _ => none) with
            | some sha, some enc =>
              if max_resource_bytes < size then none
              else
                some
                  { id := rid, kind := kind, size := size, sha256 := sha,
                    encoding := enc, created_at := now,
                    expires_at := now + ttl,
                    room :=
                      match lookupV env K_ROOM with
                      | some (CVal.text r) => some r
                      | _ => none }
            | _, _ => none
        | _ => none
      | _ => none
    | _ => none
  | _ => none

/-- The full resource-envelope branch of `Client._on_packet`: a body that
fails validation leaves the cache unchanged; a valid one is registered with
capacity-bounded FIFO eviction. -/
def handle_resource_envelope (max_pending : Nat)
    (now ttl max_resource_bytes : Int) (c : ExpCache) (env : EnvMap) :
    ExpCache :=
  match parse_resource_body now ttl max_resource_bytes env with
  | none => c
  | some e => register_expectation max_pending c e.id e

/-- The five negotiated hub limits held on `Client` (client.py lines
113-117), as overwritten by a WELCOME envelope. -/
structure HubLimits where
  max_nick_bytes : Int
  max_room_name_bytes : Int
  max_msg_body_bytes : Int
  max_rooms_per_session : Int
  rate_limit_msgs_per_minute : Int
deriving Repr, DecidableEq

/-- Python `int(v)` on a decoded CBOR value: an integer stays itself, a
text value is parsed as a decimal integer (raising on failure), and byte
strings, maps and lists raise `TypeError`; `none` models the raise. -/
def py_int : CVal → Option Int
  | CVal.int n => some n
  | CVal.text s => s.toInt?
  | _ => none

/-- One `if key in limits: self.field = int(limits[key])` statement of the
WELCOME branch (client.py lines 758-773).  A raising `int(...)` aborts the
whole handler; the `Except.error` payload carries the fields already
assigned before the raise. -/
def apply_limit_step (limits : EnvMap) (key : Int)
    (set : HubLimits → Int → HubLimits) (st : HubLimits) :
    Except HubLimits HubLimits :=
  match lookupV limits key with
  | none => Except.ok st
  | some v =>
    match py_int v with
    | some n => Except.ok (set st n)
    | none => Except.error st

/-- The limits merge of the WELCOME branch: the five recognized keys are
applied one after another in source order (nick, room-name, msg-body,
rooms-per-session, rate-limit); a malformed value stops the sequence
there, leaving earlier assignments in place (client.py lines 757-773). -/
def apply_welcome_limits (limits : EnvMap) (st : HubLimits) :
    Except HubLimits HubLimits := do
  let st1 ← apply_limit_step limits L_MAX_NICK_BYTES
    (fun s n => { s with max_nick_bytes := n }) st
  let st2 ← apply_limit_step limits L_MAX_ROOM_NAME_BYTES
    (fun s n => { s with max_room_name_bytes := n }) st1
  let st3 ← apply_limit_step limits L_MAX_MSG_BODY_BYTES
    (fun s n => { s with max_msg_body_bytes := n }) st2
  let st4 ← apply_limit_step limits L_MAX_ROOMS_PER_SESSION
    (fun s n => { s with max_rooms_per_session := n }) st3
  apply_limit_step limits L_RATE_LIMIT_MSGS_PER_MINUTE
    (fun s n => { s with rate_limit_msgs_per_minute := n }) st4

/-- The session-engine state touched by the claims: negotiated limits,
the welcomed flag, and the joined-room set (`Client.rooms`, modelled as a
duplicate-free list). -/
structure SessionState where
  limits : HubLimits
  welcomed : Bool
  rooms : List String
deriving Repr, DecidableEq

/-- Result of dispatching one WELCOME envelope: the state afterwards,
whether the `on_welcome` callback was invoked (the callback is taken to be
registered), and whether an exception escaped the handler. -/
structure WelcomeOutcome where
  state : SessionState
  welcome_cb_invoked : Bool
  raised : Bool
deriving Repr, DecidableEq

/-- The `T_WELCOME` branch of `Client._on_packet` (client.py lines
750-789): if the body is a dict carrying a dict under the limits key, the
limits are merged (unconditionally, with no first-time guard); then the
welcomed flag is set and `on_welcome` invoked.  A raise inside the merge
escapes the handler before the flag is set or the callback runs.
This helper is the limits part: locate the limits dict inside the body
dict (anything else leaves the limits untouched) and merge it. -/
def welcome_limits_merge (env : EnvMap) (l : HubLimits) :
    Except HubLimits HubLimits :=
  match lookupV env K_BODY with
  | some (CVal.map body) =>
    match lookupV body B_WELCOME_LIMITS with
    | some (CVal.map limits) => apply_welcome_limits limits l
    | _ => Except.ok l
  | _ => Except.ok l

/-- The dispatch of one WELCOME envelope: merge (whatever the current
welcomed flag is), then set the flag and invoke the callback — unless the
merge raised. -/
def handle_welcome (env : EnvMap) (st : SessionState) : WelcomeOutcome :=
  match welcome_limits_merge env st.limits with
  | Except.error stPart => ⟨{ st with limits := stPart }, false, true⟩
  | Except.ok l => ⟨{ st with limits := l, welcomed := true }, true, false⟩

/-- Message types of outgoing envelopes built by the client operations
modelled here (the concrete `T_*` integer codes live in the missing
`constants.py`; only their distinctness matters). -/
inductive MsgType where
  | join
  | part
  | msg
deriving Repr, DecidableEq

/-- The parts of an outgoing envelope the claims are about: its type tag,
room field and body. -/
structure OutEnvelope where
  msg_type : MsgType
  room : Option String
  body : Option CVal

/-- `Client.join` (client.py lines 438-458): normalize (strip then
lowercase), reject empty names, names over the negotiated room-name byte
limit, and joining past the per-session room cap; on success send a JOIN
envelope and leave the session state unchanged (the room set is not
updated optimistically). -/
def client_join (st : SessionState) (room : String) (key : Option String) :
    Except String (SessionState × OutEnvelope) :=
  let r := py_lower (py_strip room)
  if r = "" then Except.error "Room name cannot be empty."
  else if st.limits.max_room_name_bytes < (r.utf8ByteSize : Int) then
    Except.error "Room name too long"
  else if st.limits.max_rooms_per_session ≤ (st.rooms.length : Int) then
    Except.error "Cannot join more rooms"
  else
    let body : Option CVal :=
      match key with
      | some k => if k = "" then none else some (CVal.text k)
      | none => none
    Except.ok (st, ⟨MsgType.join, some r, body⟩)

/-- `Client.part` (client.py lines 460-468): normalize (strip then
lowercase) and reject only an empty normalized name; send a PART envelope
and optimistically discard the room from the joined set.  No byte-length
check is performed. -/
def client_part (st : SessionState) (room : String) :
    Except String (SessionState × OutEnvelope) :=
  let r := py_lower (py_strip room)
  if r = "" then Except.error "Room name cannot be empty."
  else
    Except.ok
      ({ st with rooms := st.rooms.filter (fun x => x ≠ r) },
       ⟨MsgType.part, some r, none⟩)

/-- The validation of `Client.msg` (client.py lines 470-492): normalize
the room, reject an empty room, an empty (all-whitespace) text, and a
text whose UTF-8 byte length exceeds the negotiated message-body limit;
only on success is the MSG envelope built and sent. -/
def client_msg (max_msg_body_bytes : Int) (room text : String) :
    Except String (String × String) :=
  let r := py_lower (py_strip room)
  if r = "" then Except.error "Room name cannot be empty."
  else if py_strip text = "" then Except.error "Message text cannot be empty."
  else if max_msg_body_bytes < (text.utf8ByteSize : Int) then
    Except.error "Message too long"
  else Except.ok (r, text)

/-- The `T_JOINED` branch of `Client._on_packet` (client.py lines
791-802): a non-empty text room field is normalized and added to the
joined set, and `on_joined` is invoked with it (returned as `some r`);
anything else is ignored. -/
def handle_joined (st : SessionState) (env : EnvMap) :
    SessionState × Option String :=
  match lookupV env K_ROOM with
  | some (CVal.text room) =>
    if room = "" then (st, none)
    else
      let r := py_lower (py_strip room)
      ({ st with
           rooms := if st.rooms.contains r then st.rooms else st.rooms ++ [r] },
       some r)
  | _ => (st, none)

/-- Exceptions `Client._send` can raise. -/
inductive SendError where
  | not_connected
  | message_too_large
deriving Repr, DecidableEq

/-- Outcome of `Client._send`: whether the oversized-message warning
callback ran, the payload actually handed to the transport (if any), and
the exception raised (if any). -/
structure SendResult where
  warned : Bool
  sent : Option (List Nat)
  err : Option SendError
deriving Repr, DecidableEq

/-- `Client._send` (client.py lines 655-669): with no link, raise; if the
encoded payload fails the packet-fit probe (`_packet_would_fit`, client.py
lines 503-510, abstracted as the predicate `fits`), invoke the
`on_resource_warning` callback when one is registered and raise
`MessageTooLargeError` without sending; otherwise send the payload as a
single unmodified packet. -/
def client_send (connected : Bool) (warning_cb_set : Bool)
    (fits : List Nat → Bool) (payload : List Nat) : SendResult :=
  if ¬ connected then ⟨false, none, some SendError.not_connected⟩
  else if ¬ fits payload then
    ⟨warning_cb_set, none, some SendError.message_too_large⟩
  else ⟨false, some payload, none⟩

/-- `PendingMessageTracker._pending` from tui.py: msg-id bytes mapped to
(room, text, sent-time). -/
abbrev PendingMap := List (List Nat × (String × String × Int))

/-- `PendingMessageTracker.add`: insert or overwrite the record with the
current time (tui.py lines 86-89). -/
def tracker_add (t : PendingMap) (id : List Nat) (room text : String)
    (now : Int) : PendingMap :=
  alist_insert t id (room, text, now)

/-- `PendingMessageTracker.confirm` (tui.py lines 91-94): pop and return
the record if present. -/
def tracker_confirm (t : PendingMap) (id : List Nat) :
    Option (String × String × Int) × PendingMap :=
  alist_pop t id

/-- `PendingMessageTracker.get_timed_out` (tui.py lines 96-109): remove
and return every entry with `current_time - sent_time > timeout`. -/
def tracker_get_timed_out (timeout now : Int) (t : PendingMap) :
    List (List Nat × String × String) × PendingMap :=
  (t.filterMap
     (fun p =>
       if timeout < now - p.2.2.2 then some (p.1, p.2.1, p.2.2.1) else none),
   t.filter (fun p => decide ¬ (timeout < now - p.2.2.2)))

/-- The envelope fields `RRCTextualApp._handle_rrc_message` reads
(tui.py lines 1415-1465); identity hashes are modelled in their hex-string
form, the body with its `""` default. -/
structure MsgEnv where
  room : Option String
  src : Option String
  body : String
  msg_id : Option (List Nat)

/-- `normalize_room_name` from utils.py: lowercase then strip. -/
def normalize_room_name (room : String) : String :=
  py_strip (py_lower room)

/-- The delivery-confirmation part of `RRCTextualApp._handle_rrc_message`
(tui.py lines 1415-1458): an inbound MSG with no room is dropped; when the
source equals the local identity and a non-empty message id is present,
the pending record is popped; only when both its room and text equal the
envelope's is the message transitioned to confirmed (the returned `Bool`).
On a mismatch the handler simply falls through: nothing is logged and the
popped record is not restored. -/
def handle_rrc_message (own_identity_hash : Option String) (t : PendingMap)
    (env : MsgEnv) : PendingMap × Bool :=
  match env.room with
  | none => (t, false)
  | some room0 =>
    if room0 = "" then (t, false)
    else
      let room := normalize_room_name room0
      match env.msg_id with
      | some mid =>
        if env.src = own_identity_hash ∧ mid ≠ [] then
          match tracker_confirm t mid with
          | (some r, t2) =>
            if r.1 = room ∧ r.2.1 = env.body then (t2, true) else (t2, false)
          | (none, t2) => (t2, false)
        else (t, false)
      | none => (t, false)

theorem alist_lookup_insert_self {α : Type} (c : List (List Nat × α))
    (k : List Nat) (v : α) :
    alist_lookup (alist_insert c k v) k = some v := by
  induction c with
  | nil => simp [alist_insert, alist_lookup, List.find?]
  | cons p rest ih =>
    by_cases hp : (p.1 == k) = true
    · simp [alist_insert, hp, alist_lookup, List.find?]
    · simp only [alist_insert, hp, Bool.false_eq_true, if_false]
      simpa [alist_lookup, List.find?, hp] using ih

theorem alist_insert_length_le {α : Type} (c : List (List Nat × α))
    (k : List Nat) (v : α) :
    (alist_insert c k v).length ≤ c.length + 1 := by
  induction c with
  | nil => simp [alist_insert]
  | cons p rest ih =>
    by_cases hp : (p.1 == k) = true
    · simp [alist_insert, hp]
    · simp only [alist_insert, hp, Bool.false_eq_true, if_false,
        List.length_cons]
      omega

theorem oldest_entry_mem (c : ExpCache) :
    ∀ q, oldest_entry c = some q → q ∈ c := by
  induction c with
  | nil => intro q h; simp [oldest_entry] at h
  | cons p rest ih =>
    intro q h
    cases hrest : oldest_entry rest with
    | none =>
      simp only [oldest_entry, hrest] at h
      injection h with h
      exact h ▸ List.mem_cons_self p rest
    | some q' =>
      simp only [oldest_entry, hrest] at h
      by_cases hlt : q'.2.created_at < p.2.created_at
      · rw [if_pos hlt] at h
        injection h with h
        exact h ▸ List.mem_cons_of_mem p (ih q' hrest)
      · rw [if_neg hlt] at h
        injection h with h
        exact h ▸ List.mem_cons_self p rest

theorem oldest_entry_eq_none {c : ExpCache} (h : oldest_entry c = none) :
    c = [] := by
  cases c with
  | nil => rfl
  | cons p rest =>
    cases hrest : oldest_entry rest with
    | none => simp [oldest_entry, hrest] at h
    | some q' =>
      simp only [oldest_entry, hrest] at h
      split at h <;> simp at h

theorem oldest_entry_min (c : ExpCache) :
    ∀ q, oldest_entry c = some q →
      ∀ p ∈ c, q.2.created_at ≤ p.2.created_at := by
  induction c with
  | nil => intro q h; simp [oldest_entry] at h
  | cons p rest ih =>
    intro q h x hx
    cases hrest : oldest_entry rest with
    | none =>
      have hnil : rest = [] := oldest_entry_eq_none hrest
      simp only [oldest_entry, hrest] at h
      injection h with h
      subst h
      subst hnil
      rcases List.mem_cons.mp hx with hx | hx
      · subst hx; exact le_refl _
      · simp at hx
    | some q' =>
      simp only [oldest_entry, hrest] at h
      by_cases hlt : q'.2.created_at < p.2.created_at
      · rw [if_pos hlt] at h
        injection h with h
        subst h
        rcases List.mem_cons.mp hx with hx | hx
        · subst hx; omega
        · exact ih q' hrest x hx
      · rw [if_neg hlt] at h
        injection h with h
        subst h
        rcases List.mem_cons.mp hx with hx | hx
        · subst hx; exact le_refl _
        · have := ih q' hrest x hx; omega

theorem oldest_entry_ne_nil {c : ExpCache} (h : c ≠ []) :
    ∃ q, oldest_entry c = some q := by
  cases c with
  | nil => exact absurd rfl h
  | cons p rest =>
    cases hrest : oldest_entry rest with
    | none => exact ⟨p, by simp [oldest_entry, hrest]⟩
    | some q' =>
      by_cases hlt : q'.2.created_at < p.2.created_at
      · exact ⟨q', by simp [oldest_entry, hrest, hlt]⟩
      · exact ⟨p, by simp [oldest_entry, hrest, hlt]⟩

/-- C1: a resource announcement that validates, arriving while the
expectation cache holds exactly `max_pending` entries (`max_pending > 0`),
first deletes one entry — one with minimal `created_at` — and then stores
the new expectation, which is therefore present afterwards; and for any
cache within capacity, registration keeps the cardinality at most
`max_pending`. -/
theorem claim1_fifo_eviction (max_pending : Nat) (now ttl maxrb : Int)
    (c : ExpCache) (env : EnvMap) (e : ResourceExpectation)
    (hparse : parse_resource_body now ttl maxrb env = some e)
    (hfull : c.length = max_pending) (hpos : 0 < max_pending) :
    (∃ old ∈ c,
        (∀ p ∈ c, old.2.created_at ≤ p.2.created_at) ∧
        handle_resource_envelope max_pending now ttl maxrb c env
          = alist_insert (c.eraseP (fun p => p.1 == old.1)) e.id e) ∧
    alist_lookup (handle_resource_envelope max_pending now ttl maxrb c env)
        e.id = some e ∧
    ∀ c2 : ExpCache, c2.length ≤ max_pending →
      (register_expectation max_pending c2 e.id e).length ≤ max_pending := by
  have hreg : handle_resource_envelope max_pending now ttl maxrb c env
      = register_expectation max_pending c e.id e := by
    simp [handle_resource_envelope, hparse]
  have hne : c ≠ [] := by
    intro hnil
    subst hnil
    simp at hfull
    omega
  obtain ⟨old, hold⟩ := oldest_entry_ne_nil hne
  have hmem := oldest_entry_mem c old hold
  have hmin := oldest_entry_min c old hold
  have hcond : max_pending ≤ c.length := by omega
  have hreg2 : register_expectation max_pending c e.id e
      = alist_insert (c.eraseP (fun p => p.1 == old.1)) e.id e := by
    unfold register_expectation
    rw [if_pos hcond, hold]
  refine ⟨⟨old, hmem, hmin, by rw [hreg, hreg2]⟩, ?_, ?_⟩
  · rw [hreg, hreg2]
    exact alist_lookup_insert_self _ _ _
  · intro c2 hc2
    unfold register_expectation
    by_cases h2 : max_pending ≤ c2.length
    · rw [if_pos h2]
      have hlen2 : c2.length = max_pending := le_antisymm hc2 h2
      have hne2 : c2 ≠ [] := by
        intro hnil
        subst hnil
        simp at hlen2
        omega
      obtain ⟨old2, hold2⟩ := oldest_entry_ne_nil hne2
      rw [hold2]
      show (alist_insert (c2.eraseP (fun p => p.1 == old2.1)) e.id e).length
          ≤ max_pending
      have hmem2 := oldest_entry_mem c2 old2 hold2
      have hpred : ((fun p => p.1 == old2.1) old2) = true := by simp
      have hlen3 :=
        List.length_eraseP_add_one (p := fun p => p.1 == old2.1) hmem2 hpred
      have hins :=
        alist_insert_length_le (c2.eraseP (fun p => p.1 == old2.1)) e.id e
      omega
    · rw [if_neg h2]
      have hins := alist_insert_length_le c2 e.id e
      omega

/-- Witness for C1: capacity 1, a full cache holding one older entry, and
a valid announcement for id `[1]`; after handling, the new expectation is
present. -/
theorem claim1_fifo_eviction_witness :
    alist_lookup
      (handle_resource_envelope 1 0 30 1000
        [([9], ⟨[9], "notice", 50, none, none, -5, 25, none⟩)]
        [(K_BODY, CVal.map
            [(B_RES_ID, CVal.bytes [1]), (B_RES_KIND, CVal.text "motd"),
             (B_RES_SIZE, CVal.int 120)])])
      [1]
      = some ⟨[1], "motd", 120, none, none, 0, 30, none⟩ :=
  (claim1_fifo_eviction 1 0 30 1000
    [([9], ⟨[9], "notice", 50, none, none, -5, 25, none⟩)]
    [(K_BODY, CVal.map
        [(B_RES_ID, CVal.bytes [1]), (B_RES_KIND, CVal.text "motd"),
         (B_RES_SIZE, CVal.int 120)])]
    ⟨[1], "motd", 120, none, none, 0, 30, none⟩
    (by decide) rfl (by decide)).2.1

theorem find?_eq_some_split {α : Type} (p : α → Bool) (l : List α) :
    ∀ a, l.find? p = some a →
      p a = true ∧
      ∃ pre post, l = pre ++ a :: post ∧ ∀ b ∈ pre, p b = false := by
  induction l with
  | nil => intro a h; simp at h
  | cons x rest ih =>
    intro a h
    by_cases hx : p x = true
    · rw [List.find?_cons_of_pos _ hx] at h
      injection h with h
      subst h
      exact ⟨hx, [], rest, rfl, by simp⟩
    · rw [List.find?_cons_of_neg _ (by simpa using hx)] at h
      obtain ⟨hpa, pre, post, hl, hpre⟩ := ih a h
      refine ⟨hpa, x :: pre, post, by rw [hl]; rfl, ?_⟩
      intro b hb
      rcases List.mem_cons.mp hb with hb | hb
      · subst hb; simpa using hx
      · exact hpre b hb

/-- C5: `_find_resource_expectation` first purges exactly the entries whose
`expires_at` has been reached and then returns the first remaining entry
whose recorded size equals the advertised size; a returned expectation is
unexpired and of the advertised size (so an entry past its TTL is never
returned), and a `none` result means no unexpired entry of that size was
in the cache. -/
theorem claim5_match_purges_then_first_size (now : Int) (c : ExpCache)
    (size : Int) :
    (∀ p, p ∈ (find_resource_expectation now c size).1 ↔
        p ∈ c ∧ now < p.2.expires_at) ∧
    (∀ e, (find_resource_expectation now c size).2 = some e →
        e.size = size ∧ now < e.expires_at ∧
        ∃ pre post k,
          (find_resource_expectation now c size).1 = pre ++ (k, e) :: post ∧
          ∀ q ∈ pre, q.2.size ≠ size) ∧
    ((find_resource_expectation now c size).2 = none →
        ∀ p ∈ c, now < p.2.expires_at → p.2.size ≠ size) := by
  refine ⟨?_, ?_, ?_⟩
  · intro p
    simp [find_resource_expectation, cleanup_expired_expectations,
      List.mem_filter]
  · intro e he
    simp only [find_resource_expectation, Option.map_eq_some'] at he
    obtain ⟨q, hq, he⟩ := he
    subst he
    obtain ⟨hpq, pre, post, hl, hpre⟩ :=
      find?_eq_some_split (fun p => p.2.size == size) _ q hq
    have hqsize : q.2.size = size := by simpa using hpq
    have hqmem : q ∈ cleanup_expired_expectations now c :=
      hl ▸ List.mem_append_right pre (List.mem_cons_self q post)
    have hqexp : now < q.2.expires_at := by
      have := (List.mem_filter.mp hqmem).2
      simpa using this
    refine ⟨hqsize, hqexp, pre, post, q.1, ?_, ?_⟩
    · simpa [find_resource_expectation] using hl
    · intro b hb
      have := hpre b hb
      simpa using this
  · intro hnone p hp hexp
    simp only [find_resource_expectation, Option.map_eq_none'] at hnone
    rw [List.find?_eq_none] at hnone
    have hmem : p ∈ cleanup_expired_expectations now c := by
      simp [cleanup_expired_expectations, List.mem_filter, hp, hexp]
    have := hnone p hmem
    simpa using this

/-- Witness for C5: with an expired size-7 entry and a live size-7 entry,
match skips the expired one and returns the live entry. -/
theorem claim5_match_witness :
    (⟨[2], "motd", 7, none, none, 0, 20, none⟩ : ResourceExpectation).size = 7 ∧
    (10 : Int) <
      (⟨[2], "motd", 7, none, none, 0, 20, none⟩ :
        ResourceExpectation).expires_at ∧
    ∃ pre post k,
      (find_resource_expectation 10
          [([1], ⟨[1], "notice", 7, none, none, 0, 5, none⟩),
           ([2], ⟨[2], "motd", 7, none, none, 0, 20, none⟩)] 7).1
        = pre ++ (k, ⟨[2], "motd", 7, none, none, 0, 20, none⟩) :: post ∧
      ∀ q ∈ pre, q.2.size ≠ 7 :=
  (claim5_match_purges_then_first_size 10
    [([1], ⟨[1], "notice", 7, none, none, 0, 5, none⟩),
     ([2], ⟨[2], "motd", 7, none, none, 0, 20, none⟩)] 7).2.1
    ⟨[2], "motd", 7, none, none, 0, 20, none⟩ (by decide)

/-- C6: for a room and text that pass the non-emptiness checks, `msg`
validation accepts a text whose UTF-8 byte length equals the negotiated
message-body limit, and rejects with a validation error — returning before
any envelope is built or sent (`Except.error` carries no envelope) — a
text at least one byte over the limit. -/
theorem claim6_msg_exact_limit (max_msg_body_bytes : Int) (room text : String)
    (hr : py_lower (py_strip room) ≠ "") (ht : py_strip text ≠ "") :
    ((text.utf8ByteSize : Int) = max_msg_body_bytes →
        client_msg max_msg_body_bytes room text
          = Except.ok (py_lower (py_strip room), text)) ∧
    (max_msg_body_bytes < (text.utf8ByteSize : Int) →
        ∃ msg, client_msg max_msg_body_bytes room text = Except.error msg) := by
  constructor
  · intro heq
    simp only [client_msg]
    rw [if_neg hr, if_neg ht, if_neg (by omega)]
  · intro hlt
    refine ⟨"Message too long", ?_⟩
    simp only [client_msg]
    rw [if_neg hr, if_neg ht, if_pos hlt]

/-- Witness for C6: a 5-byte text at limit 5 is accepted with the
normalized room. -/
theorem claim6_msg_exact_limit_witness :
    client_msg 5 "General " "hello" = Except.ok ("general", "hello") :=
  (claim6_msg_exact_limit 5 "General " "hello" (by decide) (by decide)).1
    (by decide)

/-- C7: an encoded payload that fails the packet-fit probe makes `_send`
invoke the registered oversized-message warning callback and raise
`MessageTooLargeError` with nothing sent; and whatever `_send` does hand
to the transport is always the unmodified payload (never truncated or
fragmented). -/
theorem claim7_oversized_send (connected warning_cb_set : Bool)
    (fits : List Nat → Bool) (payload : List Nat)
    (hc : connected = true) (hw : warning_cb_set = true)
    (hf : fits payload = false) :
    client_send connected warning_cb_set fits payload
      = ⟨true, none, some SendError.message_too_large⟩ ∧
    ∀ (c w : Bool) (f : List Nat → Bool) (q : List Nat),
      (client_send c w f payload).sent = some q → q = payload := by
  subst hc hw
  constructor
  · simp [client_send, hf]
  · intro c w f q h
    cases c with
    | false => simp [client_send] at h
    | true =>
      by_cases hfp : f payload = true
      · simp [client_send, hfp] at h
        exact h.symm
      · simp [client_send, hfp] at h

/-- Witness for C7: a probe that always fails on payload `[1, 2, 3]`. -/
theorem claim7_oversized_send_witness :
    client_send true true (fun _ => false) [1, 2, 3]
      = ⟨true, none, some SendError.message_too_large⟩ :=
  (claim7_oversized_send true true (fun _ => false) [1, 2, 3]
    rfl rfl rfl).1

theorem alist_lookup_eq_none_of_not_mem_keys {α : Type}
    {t : List (List Nat × α)} {k : List Nat}
    (h : k ∉ t.map Prod.fst) : alist_lookup t k = none := by
  induction t with
  | nil => rfl
  | cons p rest ih =>
    simp only [List.map_cons, List.mem_cons, not_or] at h
    have hp : ¬ ((p.1 == k) = true) := by
      simp only [beq_iff_eq]
      exact fun he => h.1 he.symm
    have hf : List.find? (fun q => q.1 == k) (p :: rest)
        = List.find? (fun q => q.1 == k) rest := List.find?_cons_of_neg _ hp
    simp only [alist_lookup, hf]
    exact ih h.2

theorem alist_lookup_eraseP_self {α : Type} {t : List (List Nat × α)}
    (k : List Nat) (h : KeysNodup t) :
    alist_lookup (t.eraseP (fun p => p.1 == k)) k = none := by
  induction t with
  | nil => rfl
  | cons p rest ih =>
    have h' : p.1 ∉ rest.map Prod.fst ∧ KeysNodup rest := by
      simpa [KeysNodup, List.nodup_cons] using h
    by_cases hp : (p.1 == k) = true
    · have he : List.eraseP (fun q => q.1 == k) (p :: rest) = rest :=
        List.eraseP_cons_of_pos hp
      rw [he]
      have hk : p.1 = k := by simpa [beq_iff_eq] using hp
      exact alist_lookup_eq_none_of_not_mem_keys (hk ▸ h'.1)
    · have he : List.eraseP (fun q => q.1 == k) (p :: rest)
          = p :: List.eraseP (fun q => q.1 == k) rest :=
        List.eraseP_cons_of_neg (by simpa using hp)
      rw [he]
      have hf : List.find? (fun q => q.1 == k) (p :: List.eraseP (fun q => q.1 == k) rest)
          = List.find? (fun q => q.1 == k) (List.eraseP (fun q => q.1 == k) rest) :=
        List.find?_cons_of_neg _ hp
      simp only [alist_lookup, hf]
      exact ih h'.2

theorem eq_of_mem_of_keys_nodup {α : Type} {t : List (List Nat × α)}
    (h : KeysNodup t) {a b : List Nat × α}
    (ha : a ∈ t) (hb : b ∈ t) (hk : a.1 = b.1) : a = b := by
  induction t with
  | nil => simp at ha
  | cons p rest ih =>
    have h' : p.1 ∉ rest.map Prod.fst ∧ KeysNodup rest := by
      simpa [KeysNodup, List.nodup_cons] using h
    rcases List.mem_cons.mp ha with ha' | ha' <;>
      rcases List.mem_cons.mp hb with hb' | hb'
    · rw [ha', hb']
    · exfalso
      apply h'.1
      rw [ha'] at hk
      exact hk ▸ List.mem_map_of_mem Prod.fst hb'
    · exfalso
      apply h'.1
      rw [hb'] at hk
      exact hk ▸ List.mem_map_of_mem Prod.fst ha'
    · exact ih h'.2 ha' hb'

theorem mem_tracker_sweep_key {timeout now : Int} {t : PendingMap}
    {y : List Nat × String × String}
    (h : y ∈ (tracker_get_timed_out timeout now t).1) :
    y.1 ∈ t.map Prod.fst := by
  simp only [tracker_get_timed_out, List.mem_filterMap] at h
  obtain ⟨a, ha, hf⟩ := h
  by_cases hc : timeout < now - a.2.2.2
  · rw [if_pos hc] at hf
    injection hf with hf
    subst hf
    exact List.mem_map_of_mem Prod.fst ha
  · rw [if_neg hc] at hf
    cases hf

theorem tracker_sweep_keys_sublist (timeout now : Int) (t : PendingMap) :
    ((tracker_get_timed_out timeout now t).1.map Prod.fst).Sublist
      (t.map Prod.fst) := by
  induction t with
  | nil => simp [tracker_get_timed_out]
  | cons a rest ih =>
    simp only [tracker_get_timed_out] at ih ⊢
    by_cases hc : timeout < now - a.2.2.2
    · simp only [List.filterMap_cons, if_pos hc, List.map_cons]
      exact ih.cons₂ a.1
    · simp only [List.filterMap_cons, if_neg hc, List.map_cons]
      exact ih.cons a.1

/-- C8: first `confirm(id)` of a pending id returns the record and a
second `confirm(id)` with no intervening add returns "not found"; the
sweep removes and reports exactly the entries older than the timeout,
each reported id is reported once (distinct ids), is absent from the map
afterwards, and no later sweep of the remaining map ever reports it
again. -/
theorem claim8_tracker_confirm_and_sweep (t : PendingMap) (id : List Nat)
    (timeout now : Int) (hnodup : KeysNodup t)
    (hpend : (alist_lookup t id).isSome) :
    ((tracker_confirm t id).1.isSome ∧
      (tracker_confirm (tracker_confirm t id).2 id).1 = none) ∧
    (∀ x, x ∈ (tracker_get_timed_out timeout now t).1 ↔
        ∃ s, (x.1, x.2.1, x.2.2, s) ∈ t ∧ timeout < now - s) ∧
    ((tracker_get_timed_out timeout now t).1.map Prod.fst).Nodup ∧
    (∀ x ∈ (tracker_get_timed_out timeout now t).1,
        alist_lookup (tracker_get_timed_out timeout now t).2 x.1 = none) ∧
    (∀ x ∈ (tracker_get_timed_out timeout now t).1, ∀ now2 : Int,
        ∀ y ∈ (tracker_get_timed_out timeout now2
            (tracker_get_timed_out timeout now t).2).1, y.1 ≠ x.1) := by
  have hkey_not_in_t2 : ∀ x ∈ (tracker_get_timed_out timeout now t).1,
      x.1 ∉ (tracker_get_timed_out timeout now t).2.map Prod.fst := by
    intro x hx hkey
    obtain ⟨b, hb2, hbk⟩ := List.mem_map.mp hkey
    have hb : b ∈ t := (List.mem_filter.mp hb2).1
    have hbcond : ¬ (timeout < now - b.2.2.2) := by
      have hmem := (List.mem_filter.mp hb2).2
      simpa using hmem
    simp only [tracker_get_timed_out, List.mem_filterMap] at hx
    obtain ⟨a, ha, hf⟩ := hx
    by_cases hcond : timeout < now - a.2.2.2
    · rw [if_pos hcond] at hf
      injection hf with hf
      have hax : a.1 = x.1 := by rw [← hf]
      have hab : b = a := eq_of_mem_of_keys_nodup hnodup hb ha (by rw [hbk, hax])
      rw [hab] at hbcond
      exact hbcond hcond
    · rw [if_neg hcond] at hf
      cases hf
  refine ⟨⟨hpend, ?_⟩, ?_, ?_, ?_, ?_⟩
  · exact alist_lookup_eraseP_self id hnodup
  · intro x
    constructor
    · intro hx
      simp only [tracker_get_timed_out, List.mem_filterMap] at hx
      obtain ⟨a, ha, hf⟩ := hx
      by_cases hc : timeout < now - a.2.2.2
      · rw [if_pos hc] at hf
        injection hf with hf
        subst hf
        exact ⟨a.2.2.2, ha, hc⟩
      · rw [if_neg hc] at hf
        cases hf
    · rintro ⟨s, hmem, hs⟩
      simp only [tracker_get_timed_out, List.mem_filterMap]
      exact ⟨(x.1, x.2.1, x.2.2, s), hmem, by simp [hs]⟩
  · exact (tracker_sweep_keys_sublist timeout now t).nodup hnodup
  · intro x hx
    exact alist_lookup_eq_none_of_not_mem_keys (hkey_not_in_t2 x hx)
  · intro x hx now2 y hy heq
    exact hkey_not_in_t2 x hx (heq ▸ mem_tracker_sweep_key hy)

/-- Witness for C8: a two-entry tracker with one stale entry; the pending
id `[1]` confirms once and not twice. -/
theorem claim8_tracker_confirm_and_sweep_witness :
    ((tracker_confirm
        [([1], ("general", "hi", 0)), ([2], ("dev", "yo", 100))] [1]).1.isSome ∧
      (tracker_confirm
        (tracker_confirm
          [([1], ("general", "hi", 0)), ([2], ("dev", "yo", 100))] [1]).2
        [1]).1 = none) :=
  (claim8_tracker_confirm_and_sweep
    [([1], ("general", "hi", 0)), ([2], ("dev", "yo", 100))] [1] 30 50
    (by decide) (by decide)).1

theorem alist_lookup_isSome_of_mem_keys {α : Type}
    {t : List (List Nat × α)} {k : List Nat}
    (h : k ∈ t.map Prod.fst) : (alist_lookup t k).isSome := by
  induction t with
  | nil => simp at h
  | cons p rest ih =>
    by_cases hp : (p.1 == k) = true
    · have hf : List.find? (fun q => q.1 == k) (p :: rest) = some p :=
        List.find?_cons_of_pos _ hp
      simp [alist_lookup, hf]
    · have hf : List.find? (fun q => q.1 == k) (p :: rest)
          = List.find? (fun q => q.1 == k) rest :=
        List.find?_cons_of_neg _ hp
      simp only [alist_lookup, hf]
      apply ih
      simp only [List.map_cons, List.mem_cons] at h
      rcases h with h | h
      · exact absurd (by simp [h]) hp
      · exact h

/-- C2 counterexample: the local echo of msg id `[1]` arrives with
mismatching text (`"hullo"` vs the pending `"hello"`); the handler does
not confirm — but the popped record is gone (tracker empty) and a
subsequent timeout sweep (30s timeout, time 1000) reports nothing, so the
pending record does not remain subject to the sweep as claimed. -/
theorem claim2_mismatch_counterexample :
    handle_rrc_message (some "aa") [([1], ("general", "hello", 0))]
        ⟨some "general", some "aa", "hullo", some [1]⟩
      = ([], false) ∧
    (tracker_get_timed_out 30 1000
      (handle_rrc_message (some "aa") [([1], ("general", "hello", 0))]
        ⟨some "general", some "aa", "hullo", some [1]⟩).1).1 = [] := by
  constructor
  · decide
  · decide

/-- C2 (amended): on an inbound own-source MSG whose id matches a pending
record but whose room or text differs from the popped record, the UI does
not transition the message to confirmed; however the record has already
been removed by the pop, so it is no longer in the tracker and no timeout
sweep ever reports its id via the timeout callback. -/
theorem claim2_mismatch_not_confirmed_and_dropped (own : Option String)
    (t : PendingMap) (env : MsgEnv) (room0 : String) (mid : List Nat)
    (r : String × String × Int) (hnodup : KeysNodup t)
    (hroom : env.room = some room0) (hne : room0 ≠ "")
    (hsrc : env.src = own) (hmid : env.msg_id = some mid) (hmid0 : mid ≠ [])
    (hrec : alist_lookup t mid = some r)
    (hmismatch : ¬ (r.1 = normalize_room_name room0 ∧ r.2.1 = env.body)) :
    (handle_rrc_message own t env).2 = false ∧
    alist_lookup (handle_rrc_message own t env).1 mid = none ∧
    ∀ timeout now : Int,
      ∀ y ∈ (tracker_get_timed_out timeout now
          (handle_rrc_message own t env).1).1, y.1 ≠ mid := by
  have hconf : tracker_confirm t mid
      = (some r, t.eraseP (fun p => p.1 == mid)) := by
    simp [tracker_confirm, alist_pop, hrec]
  have hstep : handle_rrc_message own t env
      = (t.eraseP (fun p => p.1 == mid), false) := by
    simp only [handle_rrc_message, hroom, hmid]
    rw [if_neg hne, if_pos ⟨hsrc, hmid0⟩]
    simp only [hconf]
    rw [if_neg hmismatch]
  refine ⟨by rw [hstep], ?_, ?_⟩
  · rw [hstep]
    exact alist_lookup_eraseP_self mid hnodup
  · intro timeout now y hy heq
    rw [hstep] at hy
    have hkey := mem_tracker_sweep_key hy
    rw [heq] at hkey
    have hsome := alist_lookup_isSome_of_mem_keys hkey
    rw [alist_lookup_eraseP_self mid hnodup] at hsome
    cases hsome

/-- Witness for the amended C2 at the concrete mismatching echo. -/
theorem claim2_mismatch_witness :
    (handle_rrc_message (some "aa") [([1], ("general", "hello", 0))]
        ⟨some "general", some "aa", "hullo", some [1]⟩).2 = false ∧
    alist_lookup
      (handle_rrc_message (some "aa") [([1], ("general", "hello", 0))]
        ⟨some "general", some "aa", "hullo", some [1]⟩).1 [1] = none := by
  have h := claim2_mismatch_not_confirmed_and_dropped (some "aa")
    [([1], ("general", "hello", 0))]
    ⟨some "general", some "aa", "hullo", some [1]⟩ "general" [1]
    ("general", "hello", 0) (by decide) rfl (by decide) rfl rfl (by decide)
    (by decide) (by decide)
  exact ⟨h.1, h.2.1⟩

theorem except_bind_ok {ε α β : Type} (a : α) (f : α → Except ε β) :
    (Except.ok a : Except ε α) >>= f = f a := rfl

theorem except_bind_error {ε α β : Type} (e : ε) (f : α → Except ε β) :
    (Except.error e : Except ε α) >>= f = Except.error e := rfl

theorem apply_limit_step_wf (m : EnvMap) (key : Int)
    (set : HubLimits → Int → HubLimits) (st : HubLimits)
    (h : ∀ v, lookupV m key = some v → (py_int v).isSome) :
    ∃ st2, apply_limit_step m key set st = Except.ok st2 ∧
      ((lookupV m key = none ∧ st2 = st) ∨
       (∃ v n, lookupV m key = some v ∧ py_int v = some n ∧ st2 = set st n)) := by
  cases hk : lookupV m key with
  | none => exact ⟨st, by simp [apply_limit_step, hk], Or.inl ⟨rfl, rfl⟩⟩
  | some v =>
    obtain ⟨n, hn⟩ := Option.isSome_iff_exists.mp (h v hk)
    exact ⟨set st n, by simp [apply_limit_step, hk, hn],
      Or.inr ⟨v, n, rfl, hn, rfl⟩⟩

theorem apply_limit_step_congr (m m2 : EnvMap) (key : Int)
    (set : HubLimits → Int → HubLimits)
    (h : lookupV m2 key = lookupV m key) :
    ∀ st, apply_limit_step m2 key set st = apply_limit_step m key set st := by
  intro st
  simp [apply_limit_step, h]

/-- C3 counterexample: a WELCOME limits sub-map carrying a well-formed
nickname limit (5) followed by a malformed (byte-string) room-name limit:
the merge raises after having assigned the nickname limit, leaving the
remaining limits untouched — the recognized keys present neither all take
effect nor none, so the merge is not atomic. -/
theorem claim3_not_atomic_counterexample :
    apply_welcome_limits
      [(L_MAX_NICK_BYTES, CVal.int 5), (L_MAX_ROOM_NAME_BYTES, CVal.bytes [0])]
      ⟨1, 2, 3, 4, 5⟩
      = Except.error ⟨5, 2, 3, 4, 5⟩ := by
  rfl

/-- C3 (amended): the engine reads only the five recognized limit keys,
applying them sequentially in the order nickname, room-name, message-body,
rooms-per-session, rate-limit; when every recognized key present carries
an integer-convertible value all of them take effect in one locked merge;
but a malformed value raises at its key, leaving keys applied earlier
updated and the rest unchanged — the update is sequential, not atomic. -/
theorem claim3_limits_merge_sequential (m : EnvMap) (st : HubLimits) :
    (∀ m2 : EnvMap,
        (∀ k ∈ [L_MAX_NICK_BYTES, L_MAX_ROOM_NAME_BYTES, L_MAX_MSG_BODY_BYTES,
            L_MAX_ROOMS_PER_SESSION, L_RATE_LIMIT_MSGS_PER_MINUTE],
          lookupV m2 k = lookupV m k) →
        apply_welcome_limits m2 st = apply_welcome_limits m st) ∧
    ((∀ k ∈ [L_MAX_NICK_BYTES, L_MAX_ROOM_NAME_BYTES, L_MAX_MSG_BODY_BYTES,
        L_MAX_ROOMS_PER_SESSION, L_RATE_LIMIT_MSGS_PER_MINUTE],
        ∀ v, lookupV m k = some v → (py_int v).isSome) →
      ∃ st2, apply_welcome_limits m st = Except.ok st2 ∧
        (match lookupV m L_MAX_NICK_BYTES with
         | some v => py_int v = some st2.max_nick_bytes
         | none => st2.max_nick_bytes = st.max_nick_bytes) ∧
        (match lookupV m L_MAX_ROOM_NAME_BYTES with
         | some v => py_int v = some st2.max_room_name_bytes
         | none => st2.max_room_name_bytes = st.max_room_name_bytes) ∧
        (match lookupV m L_MAX_MSG_BODY_BYTES with
         | some v => py_int v = some st2.max_msg_body_bytes
         | none => st2.max_msg_body_bytes = st.max_msg_body_bytes) ∧
        (match lookupV m L_MAX_ROOMS_PER_SESSION with
         | some v => py_int v = some st2.max_rooms_per_session
         | none => st2.max_rooms_per_session = st.max_rooms_per_session) ∧
        (match lookupV m L_RATE_LIMIT_MSGS_PER_MINUTE with
         | some v => py_int v = some st2.rate_limit_msgs_per_minute
         | none => st2.rate_limit_msgs_per_minute
             = st.rate_limit_msgs_per_minute)) ∧
    ((∀ v, lookupV m L_MAX_NICK_BYTES = some v → (py_int v).isSome) →
      ∀ v2, lookupV m L_MAX_ROOM_NAME_BYTES = some v2 → py_int v2 = none →
      ∃ stE, apply_welcome_limits m st = Except.error stE ∧
        (match lookupV m L_MAX_NICK_BYTES with
         | some v => py_int v = some stE.max_nick_bytes
         | none => stE.max_nick_bytes = st.max_nick_bytes) ∧
        stE.max_room_name_bytes = st.max_room_name_bytes ∧
        stE.max_msg_body_bytes = st.max_msg_body_bytes ∧
        stE.max_rooms_per_session = st.max_rooms_per_session ∧
        stE.rate_limit_msgs_per_minute = st.rate_limit_msgs_per_minute) := by
  refine ⟨?_, ?_, ?_⟩
  · intro m2 hagree
    have e1 := apply_limit_step_congr m m2 L_MAX_NICK_BYTES
      (fun s n => { s with max_nick_bytes := n }) (hagree _ (by simp))
    have e2 := apply_limit_step_congr m m2 L_MAX_ROOM_NAME_BYTES
      (fun s n => { s with max_room_name_bytes := n }) (hagree _ (by simp))
    have e3 := apply_limit_step_congr m m2 L_MAX_MSG_BODY_BYTES
      (fun s n => { s with max_msg_body_bytes := n }) (hagree _ (by simp))
    have e4 := apply_limit_step_congr m m2 L_MAX_ROOMS_PER_SESSION
      (fun s n => { s with max_rooms_per_session := n }) (hagree _ (by simp))
    have e5 := apply_limit_step_congr m m2 L_RATE_LIMIT_MSGS_PER_MINUTE
      (fun s n => { s with rate_limit_msgs_per_minute := n }) (hagree _ (by simp))
    simp only [apply_welcome_limits, e1, e2, e3, e4, e5]
  · intro hwf
    obtain ⟨a1, hs1, d1⟩ := apply_limit_step_wf m L_MAX_NICK_BYTES
      (fun s n => { s with max_nick_bytes := n }) st (hwf _ (by simp))
    obtain ⟨a2, hs2, d2⟩ := apply_limit_step_wf m L_MAX_ROOM_NAME_BYTES
      (fun s n => { s with max_room_name_bytes := n }) a1 (hwf _ (by simp))
    obtain ⟨a3, hs3, d3⟩ := apply_limit_step_wf m L_MAX_MSG_BODY_BYTES
      (fun s n => { s with max_msg_body_bytes := n }) a2 (hwf _ (by simp))
    obtain ⟨a4, hs4, d4⟩ := apply_limit_step_wf m L_MAX_ROOMS_PER_SESSION
      (fun s n => { s with max_rooms_per_session := n }) a3 (hwf _ (by simp))
    obtain ⟨a5, hs5, d5⟩ := apply_limit_step_wf m L_RATE_LIMIT_MSGS_PER_MINUTE
      (fun s n => { s with rate_limit_msgs_per_minute := n }) a4 (hwf _ (by simp))
    have happ : apply_welcome_limits m st = Except.ok a5 := by
      simp only [apply_welcome_limits, hs1, except_bind_ok, hs2, hs3, hs4, hs5]
    have q1 : a1.max_room_name_bytes = st.max_room_name_bytes ∧
        a1.max_msg_body_bytes = st.max_msg_body_bytes ∧
        a1.max_rooms_per_session = st.max_rooms_per_session ∧
        a1.rate_limit_msgs_per_minute = st.rate_limit_msgs_per_minute := by
      rcases d1 with ⟨_, rfl⟩ | ⟨v, n, _, _, rfl⟩ <;> exact ⟨rfl, rfl, rfl, rfl⟩
    have q2 : a2.max_nick_bytes = a1.max_nick_bytes ∧
        a2.max_msg_body_bytes = a1.max_msg_body_bytes ∧
        a2.max_rooms_per_session = a1.max_rooms_per_session ∧
        a2.rate_limit_msgs_per_minute = a1.rate_limit_msgs_per_minute := by
      rcases d2 with ⟨_, rfl⟩ | ⟨v, n, _, _, rfl⟩ <;> exact ⟨rfl, rfl, rfl, rfl⟩
    have q3 : a3.max_nick_bytes = a2.max_nick_bytes ∧
        a3.max_room_name_bytes = a2.max_room_name_bytes ∧
        a3.max_rooms_per_session = a2.max_rooms_per_session ∧
        a3.rate_limit_msgs_per_minute = a2.rate_limit_msgs_per_minute := by
      rcases d3 with ⟨_, rfl⟩ | ⟨v, n, _, _, rfl⟩ <;> exact ⟨rfl, rfl, rfl, rfl⟩
    have q4 : a4.max_nick_bytes = a3.max_nick_bytes ∧
        a4.max_room_name_bytes = a3.max_room_name_bytes ∧
        a4.max_msg_body_bytes = a3.max_msg_body_bytes ∧
        a4.rate_limit_msgs_per_minute = a3.rate_limit_msgs_per_minute := by
      rcases d4 with ⟨_, rfl⟩ | ⟨v, n, _, _, rfl⟩ <;> exact ⟨rfl, rfl, rfl, rfl⟩
    have q5 : a5.max_nick_bytes = a4.max_nick_bytes ∧
        a5.max_room_name_bytes = a4.max_room_name_bytes ∧
        a5.max_msg_body_bytes = a4.max_msg_body_bytes ∧
        a5.max_rooms_per_session = a4.max_rooms_per_session := by
      rcases d5 with ⟨_, rfl⟩ | ⟨v, n, _, _, rfl⟩ <;> exact ⟨rfl, rfl, rfl, rfl⟩
    refine ⟨a5, happ, ?_, ?_, ?_, ?_, ?_⟩
    · have hchain : a5.max_nick_bytes = a1.max_nick_bytes := by
        rw [q5.1, q4.1, q3.1, q2.1]
      rcases d1 with ⟨hk, rfl⟩ | ⟨v, n, hk, hn, rfl⟩
      · simp only [hk]
        rw [hchain]
      · simp only [hk]
        rw [hchain]
        exact hn
    · have hchain : a5.max_room_name_bytes = a2.max_room_name_bytes := by
        rw [q5.2.1, q4.2.1, q3.2.1]
      rcases d2 with ⟨hk, rfl⟩ | ⟨v, n, hk, hn, rfl⟩
      · simp only [hk]
        rw [hchain, q1.1]
      · simp only [hk]
        rw [hchain]
        exact hn
    · have hchain : a5.max_msg_body_bytes = a3.max_msg_body_bytes := by
        rw [q5.2.2.1, q4.2.2.1]
      rcases d3 with ⟨hk, rfl⟩ | ⟨v, n, hk, hn, rfl⟩
      · simp only [hk]
        rw [hchain, q2.2.1, q1.2.1]
      · simp only [hk]
        rw [hchain]
        exact hn
    · have hchain : a5.max_rooms_per_session = a4.max_rooms_per_session := by
        rw [q5.2.2.2]
      rcases d4 with ⟨hk, rfl⟩ | ⟨v, n, hk, hn, rfl⟩
      · simp only [hk]
        rw [hchain, q3.2.2.1, q2.2.2.1, q1.2.2.1]
      · simp only [hk]
        rw [hchain]
        exact hn
    · rcases d5 with ⟨hk, rfl⟩ | ⟨v, n, hk, hn, rfl⟩
      · simp only [hk]
        rw [q4.2.2.2, q3.2.2.2, q2.2.2.2, q1.2.2.2]
      · simp only [hk]
        exact hn
  · intro hn1 v2 hv2 hv2none
    obtain ⟨a1, hs1, d1⟩ := apply_limit_step_wf m L_MAX_NICK_BYTES
      (fun s n => { s with max_nick_bytes := n }) st hn1
    have hs2e : apply_limit_step m L_MAX_ROOM_NAME_BYTES
        (fun s n => { s with max_room_name_bytes := n }) a1
        = Except.error a1 := by
      simp [apply_limit_step, hv2, hv2none]
    have happ : apply_welcome_limits m st = Except.error a1 := by
      simp only [apply_welcome_limits, hs1, except_bind_ok, hs2e,
        except_bind_error]
    have q1 : a1.max_room_name_bytes = st.max_room_name_bytes ∧
        a1.max_msg_body_bytes = st.max_msg_body_bytes ∧
        a1.max_rooms_per_session = st.max_rooms_per_session ∧
        a1.rate_limit_msgs_per_minute = st.rate_limit_msgs_per_minute := by
      rcases d1 with ⟨_, rfl⟩ | ⟨v, n, _, _, rfl⟩ <;> exact ⟨rfl, rfl, rfl, rfl⟩
    refine ⟨a1, happ, ?_, q1.1, q1.2.1, q1.2.2.1, q1.2.2.2⟩
    rcases d1 with ⟨hk, rfl⟩ | ⟨v, n, hk, hn, rfl⟩
    · simp only [hk]
    · simp only [hk]
      exact hn

/-- Witness for the amended C3: the empty limits sub-map merges cleanly
and leaves every limit unchanged. -/
theorem claim3_limits_merge_witness :
    ∃ st2, apply_welcome_limits [] ⟨1, 2, 3, 4, 5⟩ = Except.ok st2 ∧
      (match lookupV [] L_MAX_NICK_BYTES with
       | some v => py_int v = some st2.max_nick_bytes
       | none => st2.max_nick_bytes = (⟨1, 2, 3, 4, 5⟩ : HubLimits).max_nick_bytes) ∧
      (match lookupV [] L_MAX_ROOM_NAME_BYTES with
       | some v => py_int v = some st2.max_room_name_bytes
       | none => st2.max_room_name_bytes
           = (⟨1, 2, 3, 4, 5⟩ : HubLimits).max_room_name_bytes) ∧
      (match lookupV [] L_MAX_MSG_BODY_BYTES with
       | some v => py_int v = some st2.max_msg_body_bytes
       | none => st2.max_msg_body_bytes
           = (⟨1, 2, 3, 4, 5⟩ : HubLimits).max_msg_body_bytes) ∧
      (match lookupV [] L_MAX_ROOMS_PER_SESSION with
       | some v => py_int v = some st2.max_rooms_per_session
       | none => st2.max_rooms_per_session
           = (⟨1, 2, 3, 4, 5⟩ : HubLimits).max_rooms_per_session) ∧
      (match lookupV [] L_RATE_LIMIT_MSGS_PER_MINUTE with
       | some v => py_int v = some st2.rate_limit_msgs_per_minute
       | none => st2.rate_limit_msgs_per_minute
           = (⟨1, 2, 3, 4, 5⟩ : HubLimits).rate_limit_msgs_per_minute) :=
  (claim3_limits_merge_sequential [] ⟨1, 2, 3, 4, 5⟩).2.1
    (by intro k hk v hv; simp [lookupV] at hv)

/-- C4 counterexample: a second WELCOME on an already-welcomed session
re-merges the limits (nickname limit 7 becomes 9) and re-invokes the
welcome callback — the WELCOME branch has no first-time guard. -/
theorem claim4_rewelcome_counterexample :
    handle_welcome
      [(K_BODY, CVal.map
          [(B_WELCOME_LIMITS, CVal.map [(L_MAX_NICK_BYTES, CVal.int 7)])])]
      ⟨⟨1, 2, 3, 4, 5⟩, false, []⟩
      = ⟨⟨⟨7, 2, 3, 4, 5⟩, true, []⟩, true, false⟩ ∧
    handle_welcome
      [(K_BODY, CVal.map
          [(B_WELCOME_LIMITS, CVal.map [(L_MAX_NICK_BYTES, CVal.int 9)])])]
      ⟨⟨7, 2, 3, 4, 5⟩, true, []⟩
      = ⟨⟨⟨9, 2, 3, 4, 5⟩, true, []⟩, true, false⟩ :=
  ⟨rfl, rfl⟩

/-- C4 (amended): WELCOME dispatch merges negotiated limits, sets the
welcomed flag and invokes the welcome callback on every WELCOME envelope
whose merge does not raise, not only the first: the merged limits, the
callback invocation and the raise outcome are all independent of the
session's prior welcomed flag, so a second WELCOME re-merges and
re-invokes. -/
theorem claim4_welcome_every_time (env : EnvMap) (st : SessionState)
    (b : Bool) :
    ((handle_welcome env st).raised = false →
        (handle_welcome env st).welcome_cb_invoked = true ∧
        (handle_welcome env st).state.welcomed = true) ∧
    (handle_welcome env { st with welcomed := b }).welcome_cb_invoked
      = (handle_welcome env st).welcome_cb_invoked ∧
    (handle_welcome env { st with welcomed := b }).state.limits
      = (handle_welcome env st).state.limits ∧
    (handle_welcome env { st with welcomed := b }).raised
      = (handle_welcome env st).raised := by
  cases hm : welcome_limits_merge env st.limits with
  | error s => refine ⟨?_, ?_, ?_, ?_⟩ <;> simp [handle_welcome, hm]
  | ok l => refine ⟨?_, ?_, ?_, ?_⟩ <;> simp [handle_welcome, hm]

/-- Witness for the amended C4: an empty WELCOME envelope merges nothing,
invokes the callback and sets the flag. -/
theorem claim4_welcome_every_time_witness :
    (handle_welcome [] ⟨⟨1, 2, 3, 4, 5⟩, false, []⟩).welcome_cb_invoked
      = true ∧
    (handle_welcome [] ⟨⟨1, 2, 3, 4, 5⟩, false, []⟩).state.welcomed = true :=
  (claim4_welcome_every_time [] ⟨⟨1, 2, 3, 4, 5⟩, false, []⟩ true).1 rfl

/-- C9 counterexample: with a negotiated room-name limit of 3 bytes, the
5-byte room name "aaaaa" is rejected by `join` but accepted by `part` —
`part` performs no byte-length check, so the two do not both reject
over-limit names. -/
theorem claim9_part_no_length_check_counterexample :
    client_join ⟨⟨10, 3, 100, 4, 60⟩, true, ["aaaaa"]⟩ "aaaaa" none
      = Except.error "Room name too long" ∧
    client_part ⟨⟨10, 3, 100, 4, 60⟩, true, ["aaaaa"]⟩ "aaaaa"
      = Except.ok (⟨⟨10, 3, 100, 4, 60⟩, true, []⟩,
          ⟨MsgType.part, some "aaaaa", none⟩) :=
  ⟨rfl, rfl⟩

/-- C9 (amended): both `join` and `part` normalize the room name by
stripping whitespace and lowercasing and reject an empty normalized name;
`join` additionally rejects a normalized name whose UTF-8 byte length
exceeds the negotiated room-name limit, while `part` performs no
byte-length check; `join("General ")` and `part("general")` operate on
the same normalized room key "general". -/
theorem claim9_room_normalization (st : SessionState) (room : String)
    (key : Option String) :
    (py_lower (py_strip room) = "" →
        (∃ e1, client_join st room key = Except.error e1) ∧
        (∃ e2, client_part st room = Except.error e2)) ∧
    (py_lower (py_strip room) ≠ "" →
        ∃ st2, client_part st room
          = Except.ok
              (st2, ⟨MsgType.part, some (py_lower (py_strip room)), none⟩)) ∧
    (py_lower (py_strip room) ≠ "" →
        st.limits.max_room_name_bytes
            < ((py_lower (py_strip room)).utf8ByteSize : Int) →
        ∃ e, client_join st room key = Except.error e) ∧
    ((∃ st2, client_part st "General "
        = Except.ok (st2, ⟨MsgType.part, some "general", none⟩)) ∧
     (∃ st3, client_part st "general"
        = Except.ok (st3, ⟨MsgType.part, some "general", none⟩))) := by
  refine ⟨?_, ?_, ?_, ?_, ?_⟩
  · intro h
    exact ⟨⟨"Room name cannot be empty.", by simp [client_join, h]⟩,
      ⟨"Room name cannot be empty.", by simp [client_part, h]⟩⟩
  · intro h
    exact ⟨{ st with
        rooms := st.rooms.filter (fun x => x ≠ py_lower (py_strip room)) },
      by simp [client_part, h]⟩
  · intro h hlt
    refine ⟨"Room name too long", ?_⟩
    simp only [client_join]
    rw [if_neg h, if_pos hlt]
  · have hg : py_lower (py_strip "General ") = "general" := rfl
    refine ⟨{ st with rooms := st.rooms.filter (fun x => x ≠ "general") }, ?_⟩
    simp only [client_part, hg]
    rw [if_neg (by decide : ¬ ("general" = ""))]
  · have hg : py_lower (py_strip "general") = "general" := rfl
    refine ⟨{ st with rooms := st.rooms.filter (fun x => x ≠ "general") }, ?_⟩
    simp only [client_part, hg]
    rw [if_neg (by decide : ¬ ("general" = ""))]

/-- Witness for the amended C9: `part("General ")` succeeds and sends the
normalized key "general". -/
theorem claim9_room_normalization_witness :
    ∃ st2, client_part ⟨⟨10, 64, 100, 4, 60⟩, true, []⟩ "General "
      = Except.ok (st2, ⟨MsgType.part, some "general", none⟩) := by
  have h := (claim9_room_normalization ⟨⟨10, 64, 100, 4, 60⟩, true, []⟩
    "General " none).2.1 (by decide)
  exact h

/-- C10: a successful `join` leaves the session state — joined-room set,
limits, welcomed flag — unchanged (join is not optimistic, unlike part);
a room enters the joined set only when an inbound JOINED envelope is
dispatched, which adds exactly the normalized room and invokes the
joined callback with it, leaving limits and welcomed flag unchanged. -/
theorem claim10_join_not_optimistic (st : SessionState) (room : String)
    (key : Option String) (st2 : SessionState) (env : OutEnvelope)
    (hok : client_join st room key = Except.ok (st2, env)) :
    st2 = st ∧
    ∀ (env2 : EnvMap) (room2 : String),
      lookupV env2 K_ROOM = some (CVal.text room2) → room2 ≠ "" →
      (handle_joined st env2).1.limits = st.limits ∧
      (handle_joined st env2).1.welcomed = st.welcomed ∧
      py_lower (py_strip room2) ∈ (handle_joined st env2).1.rooms ∧
      (handle_joined st env2).2 = some (py_lower (py_strip room2)) := by
  constructor
  · simp only [client_join] at hok
    by_cases h1 : py_lower (py_strip room) = ""
    · rw [if_pos h1] at hok; cases hok
    · rw [if_neg h1] at hok
      by_cases h2 : st.limits.max_room_name_bytes
          < ((py_lower (py_strip room)).utf8ByteSize : Int)
      · rw [if_pos h2] at hok; cases hok
      · rw [if_neg h2] at hok
        by_cases h3 : st.limits.max_rooms_per_session ≤ (st.rooms.length : Int)
        · rw [if_pos h3] at hok; cases hok
        · rw [if_neg h3] at hok
          injection hok with hok
          injection hok with ha hb
          exact ha.symm
  · intro env2 room2 hlook hne
    simp only [handle_joined, hlook]
    rw [if_neg hne]
    refine ⟨rfl, rfl, ?_, rfl⟩
    by_cases hc : st.rooms.contains (py_lower (py_strip room2))
    · rw [if_pos hc]
      exact List.mem_of_elem_eq_true hc
    · rw [if_neg hc]
      exact List.mem_append_right _ (by simp)

/-- Witness for C10: joining "dev" with generous limits leaves the state
unchanged, and a JOINED envelope for "Dev" adds "dev" to the room set. -/
theorem claim10_join_not_optimistic_witness :
    (⟨⟨10, 64, 100, 4, 60⟩, true, []⟩ : SessionState)
      = ⟨⟨10, 64, 100, 4, 60⟩, true, []⟩ ∧
    py_lower (py_strip "Dev")
      ∈ (handle_joined ⟨⟨10, 64, 100, 4, 60⟩, true, []⟩
          [(K_ROOM, CVal.text "Dev")]).1.rooms := by
  have h := claim10_join_not_optimistic ⟨⟨10, 64, 100, 4, 60⟩, true, []⟩
    "dev" none ⟨⟨10, 64, 100, 4, 60⟩, true, []⟩ ⟨MsgType.join, some "dev", none⟩
    rfl
  have h2 := h.2 [(K_ROOM, CVal.text "Dev")] "Dev" rfl (by decide)
  exact ⟨h.1, h2.2.2.1⟩
